import Mathlib

/-!
# A shallow embedding of `app/main.py` (an interactive POSIX-style shell)

The Python program is a single class `Shell` with a recursive read/handle
loop.  Its state (command, arguments, redirection targets, the two output
buffers) lives in attributes that persist from one loop iteration to the
next.  We model one loop iteration as a pure function on an explicit
`ShellState`, with the operating-system interface (environment variables,
`os.path.isfile`, `os.chdir`, subprocess execution) abstracted into an
`Env` record, and the files the shell itself writes modelled as an
association list from filename to contents.

Python exceptions that the program can raise (or fails to catch) are
modelled with `Except PyErr`; `sys.exit` is modelled as a distinguished
`ExitArg` result that aborts the iteration, mirroring the uncaught
`SystemExit` exception.
-/

namespace Shell

/-- The Python exceptions relevant to `app/main.py`: `IndexError` from
`inputs[0]` / `self.arguments[i+1]` / `list.pop(i)`, `ValueError` from
`shlex.split` and `Shell._get_path_for_file`, and `TypeError` from
`str.replace("~", None)` when `HOME` is unset. -/
inductive PyErr where
  | indexError : PyErr
  | valueError : String → PyErr
  | typeError : PyErr
deriving DecidableEq, Repr

/-- The argument passed to `sys.exit`: either an `int` (including the
implicit `0` of a bare `sys.exit()`) or a raw string. -/
inductive ExitArg where
  | int : Nat → ExitArg
  | str : String → ExitArg
deriving DecidableEq, Repr

/-- The files written by the shell: an association list, most recent
write first.  `open(filename, "w")` truncates, so a write replaces any
previous contents of that name. -/
abbrev Fs := List (String × String)

/-- `open(name, "w"); write(content)`: record the new contents of
`name`; since `fsRead` returns the most recent record, this replaces
any previous contents (`"w"` truncates). -/
def fsWrite (fs : Fs) (name content : String) : Fs :=
  (name, content) :: fs

/-- Contents of `name`, if the file exists: the most recent write. -/
def fsRead : Fs → String → Option String
  | [], _ => none
  | (k, v) :: fs, name => if k = name then some v else fsRead fs name

/-! ## `shlex.split(line, posix=True)`

`Shell._read_commands` tokenizes with `shlex.split(commands, posix=True)`.
With `posix=True` and `whitespace_split=True` (which `shlex.split` sets),
the scanner is a character state machine:

* outside quotes, runs of whitespace separate tokens;
* `'…'` is literal up to the next `'`;
* `"…"` is literal except that a backslash escapes only `"` and `\`
  (any other backslash pair is kept verbatim, backslash included);
* outside quotes a backslash escapes the next character;
* a closing quote sets the `quoted` flag, so `''` yields an empty token;
* end of input inside a quote raises `ValueError("No closing quotation")`,
  and end of input right after a backslash raises
  `ValueError("No escaped character")`.
-/

/-- The scanner states of `shlex` (state `' '`, state `'a'`, the two
quote states, and the escape state split by the state it returns to). -/
inductive LexState where
  | ws : LexState
  | word : LexState
  | inSingle : LexState
  | inDouble : LexState
  | escWord : LexState
  | escDouble : LexState
deriving DecidableEq, Repr

/-- `shlex.whitespace`: the characters that separate tokens. -/
def isShWs (c : Char) : Bool :=
  c = ' ' || c = '\t' || c = '\r' || c = '\n'

/-- The `shlex` posix state machine over the remaining characters, with
the current state, the token built so far, the `quoted` flag, and the
tokens already emitted. -/
def shlexRun : List Char → LexState → String → Bool → List String →
    Except String (List String)
  | [], st, tok, quoted, acc =>
    match st with
    | .inSingle => .error "No closing quotation"
    | .inDouble => .error "No closing quotation"
    | .escWord => .error "No escaped character"
    | .escDouble => .error "No escaped character"
    | _ => if tok ≠ "" ∨ quoted = true then .ok (acc ++ [tok]) else .ok acc
  | c :: cs, .ws, tok, quoted, acc =>
    if isShWs c then shlexRun cs .ws tok quoted acc
    else if c = '\'' then shlexRun cs .inSingle tok quoted acc
    else if c = '"' then shlexRun cs .inDouble tok quoted acc
    else if c = '\\' then shlexRun cs .escWord tok quoted acc
    else shlexRun cs .word (tok.push c) quoted acc
  | c :: cs, .word, tok, quoted, acc =>
    if isShWs c then
      if tok ≠ "" ∨ quoted = true then shlexRun cs .ws "" false (acc ++ [tok])
      else shlexRun cs .ws tok quoted acc
    else if c = '\'' then shlexRun cs .inSingle tok quoted acc
    else if c = '"' then shlexRun cs .inDouble tok quoted acc
    else if c = '\\' then shlexRun cs .escWord tok quoted acc
    else shlexRun cs .word (tok.push c) quoted acc
  | c :: cs, .inSingle, tok, quoted, acc =>
    if c = '\'' then shlexRun cs .word tok true acc
    else shlexRun cs .inSingle (tok.push c) quoted acc
  | c :: cs, .inDouble, tok, quoted, acc =>
    if c = '"' then shlexRun cs .word tok true acc
    else if c = '\\' then shlexRun cs .escDouble tok quoted acc
    else shlexRun cs .inDouble (tok.push c) quoted acc
  | c :: cs, .escWord, tok, quoted, acc =>
    shlexRun cs .word (tok.push c) quoted acc
  | c :: cs, .escDouble, tok, quoted, acc =>
    if c = '\\' ∨ c = '"' then shlexRun cs .inDouble (tok.push c) quoted acc
    else shlexRun cs .inDouble ((tok.push '\\').push c) quoted acc

/-- `shlex.split(s, posix=True)`. -/
def shlexSplit (s : String) : Except String (List String) :=
  shlexRun s.data .ws "" false []

/-! ## The shell state and its environment -/

/-- The attributes of the `Shell` class that persist across loop
iterations, together with the observable effects of one run: the files
the shell wrote (`fs`), what it printed on its own stdout/stderr
(`termOut`/`termErr`), the working directory, and a log of the external
processes it spawned. -/
structure ShellState where
  command : String
  arguments : List String
  stdout_output : String
  stderr_output : String
  filename_to_write_stdout : String
  filename_to_write_stderr : String
  cwd : String
  fs : Fs
  termOut : String
  termErr : String
  spawned : List (String × List String)
deriving DecidableEq, Repr

/-- The operating-system interface the program uses, abstracted at its
boundary: the values of `PATH` and `HOME`, `os.path.isfile`, `os.chdir`
(returning the new working directory when the target exists, `none` for
`FileNotFoundError`), and the stdout/stderr a spawned child produces. -/
structure Env where
  pathVar : String
  homeVar : Option String
  isFile : String → Bool
  chdir : String → String → Option String
  runExt : String → List String → String × String

/-- The fresh state of a `Shell()` at construction time: every string
attribute empty, no arguments (`command = ""`, `arguments = []`). -/
def initState (cwd : String) (fs : Fs) : ShellState :=
  { command := "", arguments := [], stdout_output := "", stderr_output := "",
    filename_to_write_stdout := "", filename_to_write_stderr := "",
    cwd := cwd, fs := fs, termOut := "", termErr := "", spawned := [] }

/-! ## Redirection extraction (`Shell._set_up_file_redirection`) -/

/-- Whether a token is one of the three redirection operators. -/
def isRedirOp (s : String) : Bool :=
  s = ">" || s = "1>" || s = "2>"

/-- The stream a redirection operator targets: `some true` for stdout
(`>`/`1>`), `some false` for stderr (`2>`), `none` for a non-operator. -/
def redirTarget (s : String) : Option Bool :=
  if s = ">" then some true
  else if s = "1>" then some true
  else if s = "2>" then some false
  else none

/-- The scan loop of `_set_up_file_redirection`: `i` walks over every
index of `self.arguments` (here: `off` is the absolute index and the
list argument is the remaining suffix, whose head is `self.arguments[i]`
and whose second element is `self.arguments[i+1]`).  On an operator it
records the following token as the target (later occurrences overwrite
earlier ones), truncates/creates that file at once, and appends `i` and
`i+1` to the list of indexes to pop; a trailing operator with no
following token raises `IndexError`. -/
def redirLoop : Nat → List String → String → String → Fs → List Nat →
    Except PyErr (String × String × Fs × List Nat)
  | _, [], so, se, fs, pops => .ok (so, se, fs, pops)
  | off, a :: rest, so, se, fs, pops =>
    match redirTarget a with
    | none => redirLoop (off + 1) rest so se fs pops
    | some isOut =>
      match rest with
      | [] => .error .indexError
      | fname :: _ =>
        redirLoop (off + 1) rest (if isOut then fname else so)
          (if isOut then se else fname)
          (fsWrite fs fname "") (pops ++ [off, off + 1])

/-- `list.pop(i)`: remove and discard the element at index `i`,
raising `IndexError` when the index is out of range. -/
def listPop (xs : List String) (i : Nat) : Except PyErr (List String) :=
  if i < xs.length then .ok (xs.eraseIdx i) else .error .indexError

/-- `for i in arg_indexes_to_pop: self.arguments.pop(i)`. -/
def popAll : List Nat → List String → Except PyErr (List String)
  | [], xs => .ok xs
  | i :: is, xs =>
    match listPop xs i with
    | .error e => .error e
    | .ok ys => popAll is ys

/-- Insert into a list sorted in decreasing order. -/
def insertDesc (x : Nat) : List Nat → List Nat
  | [] => [x]
  | y :: ys => if y ≤ x then x :: y :: ys else y :: insertDesc x ys

/-- `arg_indexes_to_pop.sort(reverse=True)`: sort decreasing. -/
def sortDesc : List Nat → List Nat
  | [] => []
  | x :: xs => insertDesc x (sortDesc xs)

/-- `Shell._set_up_file_redirection`: reset both targets, scan the
argument list creating/truncating each named target as it is found,
then pop the collected indexes in decreasing order. -/
def setUpFileRedirection (st : ShellState) : Except PyErr ShellState :=
  match redirLoop 0 st.arguments "" "" st.fs [] with
  | .error e => .error e
  | .ok (so, se, fs', pops) =>
    match popAll (sortDesc pops) st.arguments with
    | .error e => .error e
    | .ok args' =>
      .ok { st with
            arguments := args', filename_to_write_stdout := so,
            filename_to_write_stderr := se, fs := fs' }

/-! ## Reading a command line (`Shell._read_commands`) -/

/-- `Shell._read_commands` on one line of input: print the prompt, and
on a non-empty line tokenize it, take the first token as the command and
the rest as the arguments, then extract redirections.  On an empty line
it returns at once, leaving `command`/`arguments` (and the recorded
redirection targets) at whatever values the previous iteration left.
A whitespace-only line tokenizes to zero tokens, and `inputs[0]` raises
`IndexError`; an unterminated quote lets the `ValueError` of
`shlex.split` escape. -/
def readCommands (line : String) (st : ShellState) : Except PyErr ShellState :=
  let st := { st with termOut := st.termOut ++ "$ " }
  if line = "" then .ok st
  else
    match shlexSplit line with
    | .error e => .error (.valueError e)
    | .ok [] => .error .indexError
    | .ok (cmd :: rest) =>
      setUpFileRedirection { st with command := cmd, arguments := rest }

/-! ## PATH resolution (`Shell._get_path_for_file`) -/

/-- `os.path.join(path, filename)` for two components (POSIX rules):
an absolute second component wins; otherwise a single `/` joins them. -/
def osPathJoin (p f : String) : String :=
  if f.startsWith "/" then f
  else if p = "" then f
  else if p.endsWith "/" then p ++ f
  else p ++ "/" ++ f

/-- The search loop of `_get_path_for_file` over the directories of
`PATH`, in order: return the first join that is a regular file. -/
def getPathLoop (env : Env) (filename : String) : List String → Except String String
  | [] =>
    .error (filename ++ " not found in any path from PATHS environment variable.")
  | p :: ps =>
    if env.isFile (osPathJoin p filename) then .ok (osPathJoin p filename)
    else getPathLoop env filename ps

/-- `Shell._get_path_for_file`: split `PATH` on `":"` and search the
resulting directories in order; raise `ValueError` when no directory
contains a regular file of that exact name. -/
def getPathForFile (env : Env) (filename : String) : Except String String :=
  getPathLoop env filename (env.pathVar.splitOn ":")

/-! ## Built-ins -/

/-- `Shell.builtins`. -/
def builtins : List String := ["exit", "echo", "type", "pwd", "cd"]

/-- `Shell._one_arg_exactly`: `true` when there is exactly one argument,
else write `<command>: invalid number of arguments` directly to the
shell's own stderr (not to the buffered `stderr_output`) and return
`false`. -/
def oneArgExactly (st : ShellState) : ShellState × Bool :=
  if st.arguments.length = 1 then (st, true)
  else
    ({ st with
        termErr := st.termErr ++ st.command ++ ": invalid number of arguments\n" },
      false)

/-- Python's `str.isdigit`, modelled on ASCII arguments only: non-empty
and made of the decimal digits `0`-`9`.  On ASCII strings this model is
exact.  Real `isdigit` additionally accepts Unicode digit characters
(for which `int` either converts the value or raises `ValueError`), so
a theorem that relies on `isdigit` being `false` restricts its argument
to ASCII, where `false` here coincides with `False` there. -/
def pyIsDigit (s : String) : Bool :=
  decide (s ≠ "") && s.data.all (fun c => c.isDigit)

/-- `int(s)` on a string of decimal digits. -/
def pyStrToNat (s : String) : Nat :=
  s.data.foldl (fun n c => n * 10 + (c.toNat - '0'.toNat)) 0

/-- `Shell.exit`: no arguments means `sys.exit()` (status `0`); more
than one argument is an arity error and the shell keeps running; one
argument is converted with `int` when it `isdigit()` and passed to
`sys.exit`, otherwise the raw string itself is passed to `sys.exit`. -/
def exit (st : ShellState) : ShellState × Option ExitArg :=
  if st.arguments = [] then (st, some (.int 0))
  else
    match oneArgExactly st with
    | (st', false) => (st', none)
    | (st', true) =>
      match st'.arguments with
      | a :: _ =>
        if pyIsDigit a then (st', some (.int (pyStrToNat a)))
        else (st', some (.str a))
      | [] => (st', none)

/-- `Shell.echo`: join the arguments with single spaces, newline
terminated, into the stdout buffer. -/
def echo (st : ShellState) : ShellState :=
  { st with stdout_output := String.intercalate " " st.arguments ++ "\n" }

/-- `Shell.type`: arity one; report a builtin, else the resolved path,
else `<name>: not found` into the stderr buffer. -/
def type (env : Env) (st : ShellState) : ShellState :=
  match oneArgExactly st with
  | (st', false) => st'
  | (st', true) =>
    match st'.arguments with
    | a :: _ =>
      if a ∈ builtins then { st' with stdout_output := a ++ " is a shell builtin\n" }
      else
        match getPathForFile env a with
        | .ok fp => { st' with stdout_output := a ++ " is " ++ fp ++ "\n" }
        | .error _ => { st' with stderr_output := a ++ ": not found\n" }
    | [] => st'

/-- `Shell.pwd`: `os.getcwd()` into the stdout buffer. -/
def pwd (st : ShellState) : ShellState :=
  { st with stdout_output := st.cwd ++ "\n" }

/-- `Shell.cd`: arity one; substitute every `~` with `HOME` (a `~` with
`HOME` unset raises `TypeError` from `str.replace`), then `os.chdir`;
on `FileNotFoundError` buffer `cd: <path>: No such file or directory`
and leave the working directory unchanged. -/
def cd (env : Env) (st : ShellState) : Except PyErr ShellState :=
  match oneArgExactly st with
  | (st', false) => .ok st'
  | (st', true) =>
    match st'.arguments with
    | a :: _ =>
      match (if a.data.contains '~' then
               match env.homeVar with
               | none => Except.error PyErr.typeError
               | some h => Except.ok (a.replace "~" h)
             else Except.ok a : Except PyErr String) with
      | .error e => .error e
      | .ok p =>
        match env.chdir st'.cwd p with
        | some newCwd => .ok { st' with cwd := newCwd }
        | none =>
          .ok { st' with
                stderr_output := "cd: " ++ p ++ ": No such file or directory\n" }
    | [] => .ok st'

/-- `Shell.run_external_program`: resolve the command on `PATH` (the
`ValueError` of a failed resolution propagates to the caller), spawn it
with the remaining arguments, and capture its stdout and stderr. -/
def runOutside (env : Env) (st : ShellState) : Except String ShellState :=
  match getPathForFile env st.command with
  | .error e => .error e
  | .ok fp =>
    .ok { st with
          spawned := st.spawned ++ [(fp, st.arguments)],
          stdout_output := (env.runExt fp st.arguments).1,
          stderr_output := (env.runExt fp st.arguments).2 }

/-! ## Dispatch and output routing -/

/-- `Shell._handle_commands`: clear both output buffers; dispatch to the
builtin of the same name when `command` is in `builtins`, otherwise try
an external program, turning its `ValueError` into
`<command>: command not found` in the stderr buffer.  The second
component is the `sys.exit` argument when the command exited. -/
def handleCommands (env : Env) (st : ShellState) :
    Except PyErr (ShellState × Option ExitArg) :=
  let st := { st with stdout_output := "", stderr_output := "" }
  if st.command ∈ builtins then
    match st.command with
    | "exit" => .ok (exit st)
    | "echo" => .ok (echo st, none)
    | "type" => .ok (type env st, none)
    | "pwd" => .ok (pwd st, none)
    | "cd" =>
      match cd env st with
      | .error e => .error e
      | .ok st' => .ok (st', none)
    | _ => .ok (st, none)
  else
    match runOutside env st with
    | .error _ =>
      .ok ({ st with stderr_output := st.command ++ ": command not found\n" }, none)
    | .ok st' => .ok (st', none)

/-- The first iteration of the loop in `Shell._write_output` (the stdout
stream): skip an empty buffer; otherwise write it to the recorded target
file when one was set, else to the shell's own stdout. -/
def writeStdout (st : ShellState) : ShellState :=
  if st.stdout_output = "" then st
  else if st.filename_to_write_stdout = "" then
    { st with termOut := st.termOut ++ st.stdout_output }
  else
    { st with fs := fsWrite st.fs st.filename_to_write_stdout st.stdout_output }

/-- The second iteration of the loop in `Shell._write_output` (the
stderr stream), same routing for the stderr buffer. -/
def writeStderr (st : ShellState) : ShellState :=
  if st.stderr_output = "" then st
  else if st.filename_to_write_stderr = "" then
    { st with termErr := st.termErr ++ st.stderr_output }
  else
    { st with fs := fsWrite st.fs st.filename_to_write_stderr st.stderr_output }

/-- `Shell._write_output`: route the stdout buffer, then the stderr
buffer. -/
def writeOutput (st : ShellState) : ShellState :=
  writeStderr (writeStdout st)

/-- One iteration of `Shell._handle` on one input line: read, and when
`command` is non-empty (note: possibly left over from an earlier
iteration) handle it and route the output.  A `sys.exit` anywhere in
the handler aborts the iteration before `_write_output`. -/
def handleStep (env : Env) (line : String) (st : ShellState) :
    Except PyErr (ShellState × Option ExitArg) :=
  match readCommands line st with
  | .error e => .error e
  | .ok st1 =>
    if st1.command = "" then .ok (st1, none)
    else
      match handleCommands env st1 with
      | .error e => .error e
      | .ok (st2, some ex) => .ok (st2, some ex)
      | .ok (st2, none) => .ok (writeOutput st2, none)

/-- The loop of `Shell._handle` over a finite sequence of input lines:
stop when `sys.exit` fires, propagate any uncaught exception. -/
def runLines (env : Env) (st : ShellState) :
    List String → Except PyErr (ShellState × Option ExitArg)
  | [] => .ok (st, none)
  | l :: ls =>
    match handleStep env l st with
    | .error e => .error e
    | .ok (st1, some ex) => .ok (st1, some ex)
    | .ok (st1, none) => runLines env st1 ls

/-- A concrete environment for witnesses: two `PATH` entries with no
files in them, a set `HOME`, and no reachable directories. -/
def envEmpty : Env :=
  { pathVar := "/usr/bin:/bin", homeVar := some "/home/user",
    isFile := fun _ => false, chdir := fun _ _ => none,
    runExt := fun _ _ => ("", "") }

/-! ## Specification-side descriptions of redirection extraction

The following definitions restate, following the specification's words,
what `_set_up_file_redirection` is meant to do to a *well-formed*
argument list (every redirection operator followed by a filename token
that is not itself an operator).  They are compared with the index-based
source embedding above by the refinement theorems below. -/

/-- Whether a token sets the stdout target (`>` or `1>`). -/
def isOutOp (s : String) : Bool := s = ">" || s = "1>"

/-- Well-formedness of an argument list with respect to redirections:
every occurrence of an operator is immediately followed by a filename
token that is not itself an operator. -/
def wfRedir : List String → Bool
  | [] => true
  | [a] => !isRedirOp a
  | a :: b :: rest =>
    if isRedirOp a then !isRedirOp b && wfRedir rest
    else wfRedir (b :: rest)

/-- The argument list after extraction, per the specification: each
operator and its following filename token are removed, wherever they
appear; everything else is kept in order. -/
def extractArgs : List String → List String
  | [] => []
  | [a] => [a]
  | a :: b :: rest =>
    if isRedirOp a then extractArgs rest else a :: extractArgs (b :: rest)

/-- The recorded stdout target after scanning the list, starting from a
current target `so`: each `>`/`1>` overwrites it with its operand. -/
def specSo : List String → String → String
  | [], so => so
  | [_], so => so
  | a :: b :: rest, so =>
    if isOutOp a then specSo rest b
    else if a = "2>" then specSo rest so
    else specSo (b :: rest) so

/-- The recorded stderr target after scanning the list, starting from a
current target `se`: each `2>` overwrites it with its operand. -/
def specSe : List String → String → String
  | [], se => se
  | [_], se => se
  | a :: b :: rest, se =>
    if isOutOp a then specSe rest se
    else if a = "2>" then specSe rest b
    else specSe (b :: rest) se

/-- The file-system effect of the scan: each operand file is
created/truncated, in scan order. -/
def specFs : List String → Fs → Fs
  | [], fs => fs
  | [_], fs => fs
  | a :: b :: rest, fs =>
    if isRedirOp a then specFs rest (fsWrite fs b "")
    else specFs (b :: rest) fs

/-- The pop-index list the scan collects: `[i, i+1]` for each operator
position `i`. -/
def popsFor : List String → List Nat
  | [] => []
  | [_] => []
  | a :: b :: rest =>
    if isRedirOp a then 0 :: 1 :: (popsFor rest).map (· + 2)
    else (popsFor (b :: rest)).map (· + 1)

/-! ## Helper lemmas -/

theorem fsRead_fsWrite (fs : Fs) (n c f : String) :
    fsRead (fsWrite fs n c) f = if n = f then some c else fsRead fs f := rfl

theorem mem_insertDesc (x : Nat) (l : List Nat) (y : Nat) :
    y ∈ insertDesc x l → y = x ∨ y ∈ l := by
  induction l with
  | nil => intro h; simp [insertDesc] at h; exact Or.inl h
  | cons a l ih =>
    intro h
    by_cases hc : a ≤ x
    · simp [insertDesc, hc] at h
      rcases h with h | h | h
      · exact Or.inl h
      · exact Or.inr (by simp [h])
      · exact Or.inr (by simp [h])
    · simp [insertDesc, hc] at h
      rcases h with h | h
      · exact Or.inr (by simp [h])
      · rcases ih h with h | h
        · exact Or.inl h
        · exact Or.inr (by simp [h])

theorem mem_sortDesc (l : List Nat) (y : Nat) : y ∈ sortDesc l → y ∈ l := by
  induction l with
  | nil => simp [sortDesc]
  | cons a l ih =>
    intro h
    rcases mem_insertDesc a (sortDesc l) y h with h | h
    · simp [h]
    · simp [ih h]

theorem insertDesc_small (x : Nat) (l : List Nat) (h : ∀ y ∈ l, x < y) :
    insertDesc x l = l ++ [x] := by
  induction l with
  | nil => rfl
  | cons a l ih =>
    have ha : ¬ a ≤ x := by have := h a (by simp); omega
    simp [insertDesc, ha]
    exact ih (fun y hy => h y (by simp [hy]))

theorem insertDesc_map_add (x k : Nat) (l : List Nat) :
    insertDesc (x + k) (l.map (· + k)) = (insertDesc x l).map (· + k) := by
  induction l with
  | nil => rfl
  | cons a l ih =>
    by_cases hc : a ≤ x
    · have : a + k ≤ x + k := Nat.add_le_add_right hc k
      simp [insertDesc, hc, this]
    · have : ¬ (a + k ≤ x + k) := by omega
      simp [insertDesc, hc, this, ih]

theorem sortDesc_map_add (k : Nat) (l : List Nat) :
    sortDesc (l.map (· + k)) = (sortDesc l).map (· + k) := by
  induction l with
  | nil => rfl
  | cons a l ih => simp [sortDesc, ih, insertDesc_map_add]

theorem map_add_add (l : List Nat) (m n : Nat) :
    (l.map (· + m)).map (· + n) = l.map (· + (n + m)) := by
  induction l with
  | nil => rfl
  | cons a l ih =>
    simp [ih]
    omega

theorem popAll_append (l₁ l₂ : List Nat) (xs r : List String)
    (h : popAll l₁ xs = .ok r) :
    popAll (l₁ ++ l₂) xs = popAll l₂ r := by
  induction l₁ generalizing xs with
  | nil => simp [popAll] at h; simp [h]
  | cons i is ih =>
    rcases hp : listPop xs i with e | ys
    · simp [popAll, hp] at h
    · have h2 : popAll is ys = .ok r := by simpa [popAll, hp] using h
      simpa [popAll, hp] using ih ys h2

theorem popAll_map_succ (L : List Nat) (a : String) (xs r : List String)
    (h : popAll L xs = .ok r) :
    popAll (L.map (· + 1)) (a :: xs) = .ok (a :: r) := by
  induction L generalizing xs r with
  | nil => simp [popAll] at h; simp [popAll, h]
  | cons i is ih =>
    rcases hp : listPop xs i with e | ys
    · simp [popAll, hp] at h
    · have h2 : popAll is ys = .ok r := by simpa [popAll, hp] using h
      have hi : i < xs.length := by
        by_contra hc
        simp [listPop, hc] at hp
      have hys : ys = xs.eraseIdx i := by
        have := hp
        simp [listPop, hi] at this
        exact this.symm
      have hstep : listPop (a :: xs) (i + 1) = .ok (a :: xs.eraseIdx i) := by
        simp [listPop, Nat.succ_lt_succ hi]
      have := ih (xs.eraseIdx i) r (hys ▸ h2)
      simpa [popAll, hstep] using this

theorem redirTarget_eq_none {s : String} (h : isRedirOp s = false) :
    redirTarget s = none := by
  simp [isRedirOp] at h
  obtain ⟨⟨h1, h2⟩, h3⟩ := h
  simp [redirTarget, h1, h2, h3]

theorem not_redirOp_parts {s : String} (h : isRedirOp s = false) :
    isOutOp s = false ∧ ¬ s = "2>" := by
  simp [isRedirOp] at h
  obtain ⟨⟨h1, h2⟩, h3⟩ := h
  exact ⟨by simp [isOutOp, h1, h2], h3⟩

theorem outOp_redirOp {s : String} (h : isOutOp s = true) :
    isRedirOp s = true := by
  simp [isOutOp] at h
  rcases h with h | h <;> simp [isRedirOp, h]

/-! ## Refinement: the scan loop against its specification -/

theorem pops_shift_op (pops P : List Nat) (off : Nat) :
    (pops ++ [off, off + 1]) ++ P.map (· + (off + 1 + 1)) =
      pops ++ (0 :: 1 :: P.map (· + 2)).map (· + off) := by
  rw [List.append_assoc]
  congr 1
  simp only [List.map_cons, map_add_add, List.cons_append, List.nil_append]
  have e0 : 0 + off = off := by omega
  have e1 : 1 + off = off + 1 := by omega
  have e2 : off + 1 + 1 = off + 2 := by omega
  rw [e0, e1, e2]

theorem redirLoop_wf : ∀ (args : List String), wfRedir args = true →
    ∀ (off : Nat) (so se : String) (fs : Fs) (pops : List Nat),
    redirLoop off args so se fs pops =
      .ok (specSo args so, specSe args se, specFs args fs,
           pops ++ (popsFor args).map (· + off))
  | [], _, off, so, se, fs, pops => by
    simp [redirLoop, specSo, specSe, specFs, popsFor]
  | [a], hwf, off, so, se, fs, pops => by
    have ha : isRedirOp a = false := by simpa [wfRedir] using hwf
    simp [redirLoop, redirTarget_eq_none ha, specSo, specSe, specFs, popsFor]
  | a :: b :: rest, hwf, off, so, se, fs, pops => by
    by_cases ha : isRedirOp a = true
    · have hb : isRedirOp b = false ∧ wfRedir rest = true := by
        simpa [wfRedir, ha] using hwf
      have hbn := redirTarget_eq_none hb.1
      have ih := redirLoop_wf rest hb.2
      have ha3 : (a = ">" ∨ a = "1>") ∨ a = "2>" := by
        simpa [isRedirOp] using ha
      rcases ha3 with (h | h) | h <;> subst h
      · have hso : specSo (">" :: b :: rest) so = specSo rest b := by
          simp [specSo, isOutOp]
        have hse : specSe (">" :: b :: rest) se = specSe rest se := by
          simp [specSe, isOutOp]
        have hfs : specFs (">" :: b :: rest) fs = specFs rest (fsWrite fs b "") := by
          simp [specFs, isRedirOp]
        have hpf : popsFor (">" :: b :: rest) = 0 :: 1 :: (popsFor rest).map (· + 2) := by
          simp [popsFor, isRedirOp]
        have hstep1 : redirLoop off (">" :: b :: rest) so se fs pops =
            redirLoop (off + 1) (b :: rest) b se (fsWrite fs b "")
              (pops ++ [off, off + 1]) := rfl
        have hstep2 : redirLoop (off + 1) (b :: rest) b se (fsWrite fs b "")
              (pops ++ [off, off + 1]) =
            redirLoop (off + 1 + 1) rest b se (fsWrite fs b "")
              (pops ++ [off, off + 1]) := by
          simp only [redirLoop]
          rw [hbn]
        rw [hstep1, hstep2, ih, hso, hse, hfs, hpf, pops_shift_op]
      · have hso : specSo ("1>" :: b :: rest) so = specSo rest b := by
          simp [specSo, isOutOp]
        have hse : specSe ("1>" :: b :: rest) se = specSe rest se := by
          simp [specSe, isOutOp]
        have hfs : specFs ("1>" :: b :: rest) fs = specFs rest (fsWrite fs b "") := by
          simp [specFs, isRedirOp]
        have hpf : popsFor ("1>" :: b :: rest) = 0 :: 1 :: (popsFor rest).map (· + 2) := by
          simp [popsFor, isRedirOp]
        have hstep1 : redirLoop off ("1>" :: b :: rest) so se fs pops =
            redirLoop (off + 1) (b :: rest) b se (fsWrite fs b "")
              (pops ++ [off, off + 1]) := rfl
        have hstep2 : redirLoop (off + 1) (b :: rest) b se (fsWrite fs b "")
              (pops ++ [off, off + 1]) =
            redirLoop (off + 1 + 1) rest b se (fsWrite fs b "")
              (pops ++ [off, off + 1]) := by
          simp only [redirLoop]
          rw [hbn]
        rw [hstep1, hstep2, ih, hso, hse, hfs, hpf, pops_shift_op]
      · have hso : specSo ("2>" :: b :: rest) so = specSo rest so := by
          simp [specSo, isOutOp]
        have hse : specSe ("2>" :: b :: rest) se = specSe rest b := by
          simp [specSe, isOutOp]
        have hfs : specFs ("2>" :: b :: rest) fs = specFs rest (fsWrite fs b "") := by
          simp [specFs, isRedirOp]
        have hpf : popsFor ("2>" :: b :: rest) = 0 :: 1 :: (popsFor rest).map (· + 2) := by
          simp [popsFor, isRedirOp]
        have hstep1 : redirLoop off ("2>" :: b :: rest) so se fs pops =
            redirLoop (off + 1) (b :: rest) so b (fsWrite fs b "")
              (pops ++ [off, off + 1]) := rfl
        have hstep2 : redirLoop (off + 1) (b :: rest) so b (fsWrite fs b "")
              (pops ++ [off, off + 1]) =
            redirLoop (off + 1 + 1) rest so b (fsWrite fs b "")
              (pops ++ [off, off + 1]) := by
          simp only [redirLoop]
          rw [hbn]
        rw [hstep1, hstep2, ih, hso, hse, hfs, hpf, pops_shift_op]
    · have ha' : isRedirOp a = false := by simpa using ha
      have hwf' : wfRedir (b :: rest) = true := by
        simpa [wfRedir, ha'] using hwf
      have ih := redirLoop_wf (b :: rest) hwf'
      have parts := not_redirOp_parts ha'
      have hane : (¬ a = ">" ∧ ¬ a = "1>") ∧ ¬ a = "2>" := by
        simpa [isRedirOp] using ha'
      have hstep : redirLoop off (a :: b :: rest) so se fs pops =
          redirLoop (off + 1) (b :: rest) so se fs pops := by
        simp only [redirLoop]
        rw [redirTarget_eq_none ha']
      have hso : specSo (a :: b :: rest) so = specSo (b :: rest) so := by
        simp [specSo, parts.1, parts.2]
      have hse : specSe (a :: b :: rest) se = specSe (b :: rest) se := by
        simp [specSe, parts.1, parts.2]
      have hfs : specFs (a :: b :: rest) fs = specFs (b :: rest) fs := by
        simp [specFs, ha']
      have hpf : popsFor (a :: b :: rest) = (popsFor (b :: rest)).map (· + 1) := by
        simp [popsFor, ha']
      rw [hstep, ih, hso, hse, hfs, hpf, map_add_add]
termination_by args _ _ _ _ _ _ => args.length

theorem popAll_popsFor : ∀ (args : List String), wfRedir args = true →
    popAll (sortDesc (popsFor args)) args = .ok (extractArgs args)
  | [], _ => rfl
  | [_], _ => rfl
  | a :: b :: rest, hwf => by
    by_cases ha : isRedirOp a = true
    · have hb : isRedirOp b = false ∧ wfRedir rest = true := by
        simpa [wfRedir, ha] using hwf
      have ih := popAll_popsFor rest hb.2
      have hM2 : ∀ y ∈ (sortDesc (popsFor rest)).map (· + 2), 1 < y := by
        intro y hy
        rcases List.mem_map.mp hy with ⟨x, _, rfl⟩
        omega
      have hsort : sortDesc (popsFor (a :: b :: rest)) =
          (sortDesc (popsFor rest)).map (· + 2) ++ [1, 0] := by
        have e2 : sortDesc ((popsFor rest).map (· + 2)) =
            (sortDesc (popsFor rest)).map (· + 2) := sortDesc_map_add 2 _
        have e1 : insertDesc 1 ((sortDesc (popsFor rest)).map (· + 2)) =
            (sortDesc (popsFor rest)).map (· + 2) ++ [1] :=
          insertDesc_small 1 _ hM2
        have e0 : insertDesc 0 ((sortDesc (popsFor rest)).map (· + 2) ++ [1]) =
            ((sortDesc (popsFor rest)).map (· + 2) ++ [1]) ++ [0] := by
          refine insertDesc_small 0 _ ?_
          intro y hy
          rcases List.mem_append.mp hy with hy | hy
          · exact Nat.lt_trans (by omega) (hM2 y hy)
          · simp at hy; omega
        simp [popsFor, ha, sortDesc, e2, e1, e0]
      have h2 : popAll ((sortDesc (popsFor rest)).map (· + 2)) (a :: b :: rest) =
          .ok (a :: b :: extractArgs rest) := by
        have e : ((sortDesc (popsFor rest)).map (· + 1)).map (· + 1) =
            (sortDesc (popsFor rest)).map (· + 2) := by
          rw [map_add_add]
        rw [← e]
        exact popAll_map_succ _ a _ _ (popAll_map_succ _ b _ _ ih)
      rw [hsort, popAll_append _ _ _ _ h2]
      have hE : extractArgs (a :: b :: rest) = extractArgs rest := by
        simp [extractArgs, ha]
      rw [hE]
      simp [popAll, listPop, List.eraseIdx]
    · have ha' : isRedirOp a = false := by simpa using ha
      have hwf' : wfRedir (b :: rest) = true := by
        simpa [wfRedir, ha'] using hwf
      have ih := popAll_popsFor (b :: rest) hwf'
      have hsort : sortDesc (popsFor (a :: b :: rest)) =
          (sortDesc (popsFor (b :: rest))).map (· + 1) := by
        simp [popsFor, ha', sortDesc_map_add]
      rw [hsort, popAll_map_succ _ a _ _ ih]
      simp [extractArgs, ha']
termination_by args _ => args.length

theorem extractArgs_no_op : ∀ (args : List String), wfRedir args = true →
    ∀ x ∈ extractArgs args, isRedirOp x = false
  | [], _ => by simp [extractArgs]
  | [a], hwf => by
    have ha : isRedirOp a = false := by simpa [wfRedir] using hwf
    simpa [extractArgs] using ha
  | a :: b :: rest, hwf => by
    by_cases ha : isRedirOp a = true
    · have hb : isRedirOp b = false ∧ wfRedir rest = true := by
        simpa [wfRedir, ha] using hwf
      simpa [extractArgs, ha] using extractArgs_no_op rest hb.2
    · have ha' : isRedirOp a = false := by simpa using ha
      have hwf' : wfRedir (b :: rest) = true := by
        simpa [wfRedir, ha'] using hwf
      intro x hx
      have hx' : x = a ∨ x ∈ extractArgs (b :: rest) := by
        simpa [extractArgs, ha'] using hx
      rcases hx' with h | h
      · subst h; exact ha'
      · exact extractArgs_no_op (b :: rest) hwf' x h
termination_by args _ => args.length

theorem specFs_preserve : ∀ (l : List String) (fs : Fs) (f : String),
    fsRead fs f = some "" → fsRead (specFs l fs) f = some ""
  | [], _, _, h => h
  | [_], _, _, h => h
  | a :: b :: rest, fs, f, h => by
    by_cases ha : isRedirOp a = true
    · have h' : fsRead (fsWrite fs b "") f = some "" := by
        rw [fsRead_fsWrite]
        split
        · rfl
        · exact h
      simpa [specFs, ha] using specFs_preserve rest (fsWrite fs b "") f h'
    · have ha' : isRedirOp a = false := by simpa using ha
      simpa [specFs, ha'] using specFs_preserve (b :: rest) fs f h
termination_by l _ _ _ => l.length

theorem specFs_operand : ∀ (args : List String) (i : Nat) (op f : String) (fs : Fs),
    wfRedir args = true → args.get? i = some op → isRedirOp op = true →
    args.get? (i + 1) = some f → fsRead (specFs args fs) f = some ""
  | [], i, op, f, fs, _, hop, _, _ => by simp at hop
  | [a], i, op, f, fs, _, hop, _, hf => by
    rcases i with _ | j
    · simp at hf
    · simp at hop
  | a :: b :: rest, i, op, f, fs, hwf, hop, hisop, hf => by
    by_cases ha : isRedirOp a = true
    · have hb : isRedirOp b = false ∧ wfRedir rest = true := by
        simpa [wfRedir, ha] using hwf
      rcases i with _ | j
      · have hfb : b = f := by simpa using hf
        subst hfb
        have hw : fsRead (fsWrite fs b "") b = some "" := by
          rw [fsRead_fsWrite]
          simp
        simpa [specFs, ha] using specFs_preserve rest (fsWrite fs b "") b hw
      · rcases j with _ | k
        · have : b = op := by simpa using hop
          subst this
          rw [hb.1] at hisop
          exact absurd hisop (by simp)
        · have hop' : rest.get? k = some op := by simpa using hop
          have hf' : rest.get? (k + 1) = some f := by simpa using hf
          simpa [specFs, ha] using
            specFs_operand rest k op f (fsWrite fs b "") hb.2 hop' hisop hf'
    · have ha' : isRedirOp a = false := by simpa using ha
      have hwf' : wfRedir (b :: rest) = true := by
        simpa [wfRedir, ha'] using hwf
      rcases i with _ | j
      · have : a = op := by simpa using hop
        subst this
        rw [ha'] at hisop
        exact absurd hisop (by simp)
      · have hop' : (b :: rest).get? j = some op := by simpa using hop
        have hf' : (b :: rest).get? (j + 1) = some f := by simpa using hf
        simpa [specFs, ha'] using
          specFs_operand (b :: rest) j op f fs hwf' hop' hisop hf'
termination_by args _ _ _ _ _ _ _ _ => args.length

theorem specSo_const : ∀ (l : List String), (∀ x ∈ l, isOutOp x = false) →
    ∀ so, specSo l so = so
  | [], _, _ => rfl
  | [_], _, _ => rfl
  | a :: b :: rest, h, so => by
    have ha : isOutOp a = false := h a (by simp)
    by_cases h2 : a = "2>"
    · simpa [specSo, ha, h2] using
        specSo_const rest (fun x hx => h x (by simp [hx])) so
    · simpa [specSo, ha, h2] using
        specSo_const (b :: rest) (fun x hx => h x (by simp [hx])) so
termination_by l _ _ => l.length

theorem specSe_const : ∀ (l : List String), (∀ x ∈ l, ¬ x = "2>") →
    ∀ se, specSe l se = se
  | [], _, _ => rfl
  | [_], _, _ => rfl
  | a :: b :: rest, h, se => by
    have ha : ¬ a = "2>" := h a (by simp)
    by_cases h2 : isOutOp a = true
    · simpa [specSe, ha, h2] using
        specSe_const rest (fun x hx => h x (by simp [hx])) se
    · have h2' : isOutOp a = false := by simpa using h2
      simpa [specSe, ha, h2'] using
        specSe_const (b :: rest) (fun x hx => h x (by simp [hx])) se
termination_by l _ _ => l.length

theorem specSo_last : ∀ (args : List String) (i : Nat) (op f : String),
    wfRedir args = true → args.get? i = some op → isOutOp op = true →
    args.get? (i + 1) = some f →
    (∀ j, i < j → ∀ op', args.get? j = some op' → isOutOp op' = false) →
    ∀ so, specSo args so = f
  | [], i, op, f, _, hop, _, _, _, _ => by simp at hop
  | [a], i, op, f, _, hop, _, hf, _, _ => by
    rcases i with _ | j
    · simp at hf
    · simp at hop
  | a :: b :: rest, i, op, f, hwf, hop, hout, hf, hlast, so => by
    by_cases ha : isRedirOp a = true
    · have hb : isRedirOp b = false ∧ wfRedir rest = true := by
        simpa [wfRedir, ha] using hwf
      rcases i with _ | j
      · have hopa : a = op := by simpa using hop
        have hfb : b = f := by simpa using hf
        subst hopa
        subst hfb
        have hrest : ∀ x ∈ rest, isOutOp x = false := by
          intro x hx
          rcases List.mem_iff_get?.mp hx with ⟨k, hk⟩
          exact hlast (k + 2) (by omega) x (by simpa using hk)
        simp [specSo, hout]
        exact specSo_const rest hrest b
      · rcases j with _ | k
        · have : b = op := by simpa using hop
          subst this
          rw [outOp_redirOp hout] at hb
          exact absurd hb.1 (by simp)
        · have hop' : rest.get? k = some op := by simpa using hop
          have hf' : rest.get? (k + 1) = some f := by simpa using hf
          have hlast' : ∀ j, k < j → ∀ op', rest.get? j = some op' →
              isOutOp op' = false := by
            intro j hj op' hje
            exact hlast (j + 2) (by omega) op' (by simpa using hje)
          have ih := specSo_last rest k op f hb.2 hop' hout hf' hlast'
          have ha3 : (a = ">" ∨ a = "1>") ∨ a = "2>" := by
            simpa [isRedirOp] using ha
          rcases ha3 with (h | h) | h <;> subst h
          · simpa [specSo, isOutOp] using ih b
          · simpa [specSo, isOutOp] using ih b
          · simpa [specSo, isOutOp] using ih so
    · have ha' : isRedirOp a = false := by simpa using ha
      have hwf' : wfRedir (b :: rest) = true := by
        simpa [wfRedir, ha'] using hwf
      have parts := not_redirOp_parts ha'
      rcases i with _ | j
      · have : a = op := by simpa using hop
        subst this
        rw [parts.1] at hout
        exact absurd hout (by simp)
      · have hop' : (b :: rest).get? j = some op := by simpa using hop
        have hf' : (b :: rest).get? (j + 1) = some f := by simpa using hf
        have hlast' : ∀ m, j < m → ∀ op', (b :: rest).get? m = some op' →
            isOutOp op' = false := by
          intro m hm op' he
          exact hlast (m + 1) (by omega) op' (by simpa using he)
        have ih := specSo_last (b :: rest) j op f hwf' hop' hout hf' hlast' so
        simpa [specSo, parts.1, parts.2] using ih
termination_by args _ _ _ _ _ _ _ _ _ => args.length

theorem specSe_last : ∀ (args : List String) (i : Nat) (f : String),
    wfRedir args = true → args.get? i = some "2>" →
    args.get? (i + 1) = some f →
    (∀ j, i < j → ¬ args.get? j = some "2>") →
    ∀ se, specSe args se = f
  | [], i, f, _, hop, _, _, _ => by simp at hop
  | [a], i, f, _, hop, hf, _, _ => by
    rcases i with _ | j
    · simp at hf
    · simp at hop
  | a :: b :: rest, i, f, hwf, hop, hf, hlast, se => by
    by_cases ha : isRedirOp a = true
    · have hb : isRedirOp b = false ∧ wfRedir rest = true := by
        simpa [wfRedir, ha] using hwf
      rcases i with _ | j
      · have hopa : a = "2>" := by simpa using hop
        have hfb : b = f := by simpa using hf
        subst hopa
        subst hfb
        have hrest : ∀ x ∈ rest, ¬ x = "2>" := by
          intro x hx he
          subst he
          rcases List.mem_iff_get?.mp hx with ⟨k, hk⟩
          exact hlast (k + 2) (by omega) (by simpa using hk)
        simp [specSe, isOutOp]
        exact specSe_const rest hrest b
      · rcases j with _ | k
        · have : b = "2>" := by simpa using hop
          rw [this] at hb
          have : isRedirOp "2>" = true := by simp [isRedirOp]
          rw [this] at hb
          exact absurd hb.1 (by simp)
        · have hop' : rest.get? k = some "2>" := by simpa using hop
          have hf' : rest.get? (k + 1) = some f := by simpa using hf
          have hlast' : ∀ j, k < j → ¬ rest.get? j = some "2>" := by
            intro j hj hje
            exact hlast (j + 2) (by omega) (by simpa using hje)
          have ih := specSe_last rest k f hb.2 hop' hf' hlast'
          have ha3 : (a = ">" ∨ a = "1>") ∨ a = "2>" := by
            simpa [isRedirOp] using ha
          rcases ha3 with (h | h) | h <;> subst h
          · simpa [specSe, isOutOp] using ih se
          · simpa [specSe, isOutOp] using ih se
          · simpa [specSe, isOutOp] using ih b
    · have ha' : isRedirOp a = false := by simpa using ha
      have hwf' : wfRedir (b :: rest) = true := by
        simpa [wfRedir, ha'] using hwf
      have parts := not_redirOp_parts ha'
      rcases i with _ | j
      · have : a = "2>" := by simpa using hop
        exact absurd this parts.2
      · have hop' : (b :: rest).get? j = some "2>" := by simpa using hop
        have hf' : (b :: rest).get? (j + 1) = some f := by simpa using hf
        have hlast' : ∀ m, j < m → ¬ (b :: rest).get? m = some "2>" := by
          intro m hm he
          exact hlast (m + 1) (by omega) (by simpa using he)
        have ih := specSe_last (b :: rest) j f hwf' hop' hf' hlast' se
        simpa [specSe, parts.1, parts.2] using ih
termination_by args _ _ _ _ _ _ _ => args.length

theorem setUpFileRedirection_wf (st : ShellState)
    (hwf : wfRedir st.arguments = true) :
    setUpFileRedirection st = .ok { st with
      arguments := extractArgs st.arguments,
      filename_to_write_stdout := specSo st.arguments "",
      filename_to_write_stderr := specSe st.arguments "",
      fs := specFs st.arguments st.fs } := by
  have h1 := redirLoop_wf st.arguments hwf 0 "" "" st.fs []
  have h0 : (popsFor st.arguments).map (· + 0) = popsFor st.arguments := by
    simp
  rw [h0] at h1
  simp [setUpFileRedirection, h1, popAll_popsFor st.arguments hwf]

/-! ## PATH resolution lemmas -/

theorem getPathLoop_none (env : Env) (name : String) : ∀ (dirs : List String),
    (∀ d ∈ dirs, env.isFile (osPathJoin d name) = false) →
    getPathLoop env name dirs =
      .error (name ++ " not found in any path from PATHS environment variable.")
  | [], _ => rfl
  | p :: ps, h => by
    have hp : env.isFile (osPathJoin p name) = false := h p (by simp)
    simpa [getPathLoop, hp] using
      getPathLoop_none env name ps (fun d hd => h d (by simp [hd]))

theorem getPathLoop_first (env : Env) (name : String) : ∀ (dirs : List String)
    (fp : String), getPathLoop env name dirs = .ok fp →
    ∃ i d, dirs.get? i = some d ∧ env.isFile (osPathJoin d name) = true ∧
      fp = osPathJoin d name ∧
      ∀ j d', j < i → dirs.get? j = some d' →
        env.isFile (osPathJoin d' name) = false
  | [], fp, h => by simp [getPathLoop] at h
  | p :: ps, fp, h => by
    by_cases hp : env.isFile (osPathJoin p name) = true
    · have hfp : osPathJoin p name = fp := by
        simpa [getPathLoop, hp] using h
      refine ⟨0, p, by simp, hp, hfp.symm, ?_⟩
      intro j d' hj
      exact absurd hj (by omega)
    · have hp' : env.isFile (osPathJoin p name) = false := by simpa using hp
      have h' : getPathLoop env name ps = .ok fp := by
        simpa [getPathLoop, hp'] using h
      obtain ⟨i, d, hd, hfile, hfp, hmin⟩ := getPathLoop_first env name ps fp h'
      refine ⟨i + 1, d, by simpa using hd, hfile, hfp, ?_⟩
      intro j d' hj hje
      rcases j with _ | k
      · have : p = d' := by simpa using hje
        exact this ▸ hp'
      · exact hmin k d' (by omega) (by simpa using hje)

/-! ## Tokenizer lemmas: unterminated quotes -/

theorem shlexRun_inSingle_stuck : ∀ (cs : List Char), (∀ c ∈ cs, ¬ c = '\'') →
    ∀ tok quoted acc, shlexRun cs .inSingle tok quoted acc =
      .error "No closing quotation"
  | [], _, tok, quoted, acc => rfl
  | c :: cs, h, tok, quoted, acc => by
    have hc : ¬ c = '\'' := h c (by simp)
    simpa [shlexRun, hc] using
      shlexRun_inSingle_stuck cs (fun d hd => h d (by simp [hd])) (tok.push c)
        quoted acc

theorem shlexRun_inDouble_stuck : ∀ (cs : List Char),
    (∀ c ∈ cs, ¬ c = '"' ∧ ¬ c = '\\') →
    ∀ tok quoted acc, shlexRun cs .inDouble tok quoted acc =
      .error "No closing quotation"
  | [], _, tok, quoted, acc => rfl
  | c :: cs, h, tok, quoted, acc => by
    have hc := h c (by simp)
    simpa [shlexRun, hc.1, hc.2] using
      shlexRun_inDouble_stuck cs (fun d hd => h d (by simp [hd])) (tok.push c)
        quoted acc

/-! ## Small string facts -/

theorem str_append_ne_empty (a b : String) (hb : ¬ b.data = []) :
    ¬ a ++ b = "" := by
  intro h
  have hd : (a ++ b).data = ("" : String).data := by rw [h]
  rw [String.data_append] at hd
  exact hb (List.append_eq_nil.mp hd).2

/-! ## Output routing lemmas -/

theorem writeOutput_effects (s : ShellState) :
    (writeOutput s).spawned = s.spawned ∧ (writeOutput s).cwd = s.cwd ∧
    (writeOutput s).stderr_output = s.stderr_output ∧
    (writeOutput s).command = s.command := by
  unfold writeOutput writeStderr writeStdout
  refine ⟨?_, ?_, ?_, ?_⟩ <;> (split_ifs <;> rfl)

theorem fsRead_writeOutput_isSome (s : ShellState) (f : String)
    (h : (fsRead s.fs f).isSome = true) :
    (fsRead (writeOutput s).fs f).isSome = true := by
  unfold writeOutput writeStderr writeStdout
  split_ifs <;>
    first
      | exact h
      | (simp only [fsRead_fsWrite]; split_ifs <;> simp [h])

theorem writeOutput_stderr_term (s : ShellState)
    (h1 : s.stdout_output = "") (h2 : s.filename_to_write_stderr = "")
    (h3 : ¬ s.stderr_output = "") :
    (writeOutput s).termErr = s.termErr ++ s.stderr_output := by
  simp [writeOutput, writeStderr, writeStdout, h1, h2, h3]

/-! ## Dispatch lemmas -/

theorem handleCommands_not_found (env : Env) (st : ShellState)
    (hnb : st.command ∉ builtins)
    (hnf : ∀ d ∈ env.pathVar.splitOn ":",
      env.isFile (osPathJoin d st.command) = false) :
    handleCommands env st =
      .ok ({ st with
          stdout_output := "",
          stderr_output := st.command ++ ": command not found\n" }, none) := by
  have hro : runOutside env { st with stdout_output := "", stderr_output := "" } =
      .error (st.command ++
        " not found in any path from PATHS environment variable.") := by
    simp [runOutside, getPathForFile, getPathLoop_none env st.command _ hnf]
  simp [handleCommands, hnb, hro]

/-! ## The claims -/

/-- C2: the tokenizer splits one input line on unquoted whitespace with the
quote markers consumed, and adjacent quoted/unquoted fragments with no
separating whitespace concatenate into one token: `echo 'a b' "c d" e`
tokenizes to `["echo", "a b", "c d", "e"]`, `echo 'it''s'` to
`["echo", "its"]` (a single argument token `its`), and `a'b'c` to the one
token `abc`. -/
theorem c2_tokenizer_quoting :
    shlexSplit "echo 'a b' \"c d\" e" = .ok ["echo", "a b", "c d", "e"] ∧
    shlexSplit "echo 'it''s'" = .ok ["echo", "its"] ∧
    shlexSplit "a'b'c" = .ok ["abc"] :=
  ⟨rfl, rfl, rfl⟩

/-- C3 (code-bug evidence): contrary to the claim that an empty or
all-whitespace line executes nothing, an empty line entered after
`echo hi` re-executes the previous command (the stale `self.command`
survives the early return of `_read_commands`), printing `hi` a second
time, and an all-whitespace line raises an uncaught `IndexError`
(`shlex.split` yields zero tokens, then `inputs[0]` is read). -/
theorem c3_empty_and_whitespace_lines :
    (∃ st, runLines envEmpty (initState "/root" []) ["echo hi", ""] =
        .ok (st, none) ∧
      st.termOut = "$ hi\n$ hi\n" ∧ st.command = "echo") ∧
    runLines envEmpty (initState "/root" []) [" "] = .error .indexError :=
  ⟨⟨_, rfl, rfl, rfl⟩, rfl⟩

/-- C4 (counterexample): tokenizing a line with an unterminated quote
does not succeed: `shlex.split` raises `ValueError("No closing
quotation")`, and the error propagates out of the read step uncaught. -/
theorem c4_counterexample :
    shlexSplit "echo 'abc" = .error "No closing quotation" ∧
    runLines envEmpty (initState "/root" []) ["echo 'abc"] =
      .error (.valueError "No closing quotation") :=
  ⟨rfl, rfl⟩

/-- C4 (amended): for every input line consisting of `echo ` followed by
an opening single or double quote that is never closed (no further
quote, and no backslash that could alter the scan), tokenization fails
with `ValueError("No closing quotation")` rather than treating the open
quote as extending to the end of the line, and the reader lets that
error escape. -/
theorem c4_amended_unterminated_quote (q : Char) (s : String)
    (hq : q = '\'' ∨ q = '"')
    (hs : ∀ c ∈ s.data, ¬ c = '\'' ∧ ¬ c = '"' ∧ ¬ c = '\\') :
    shlexSplit ("echo " ++ String.mk [q] ++ s) = .error "No closing quotation" ∧
    ∀ cwd fs, readCommands ("echo " ++ String.mk [q] ++ s) (initState cwd fs) =
      .error (.valueError "No closing quotation") := by
  have hdata : ("echo " ++ String.mk [q] ++ s).data =
      'e' :: 'c' :: 'h' :: 'o' :: ' ' :: q :: s.data := by
    rw [String.data_append, String.data_append]
    rfl
  have hmain : shlexSplit ("echo " ++ String.mk [q] ++ s) =
      .error "No closing quotation" := by
    rw [shlexSplit, hdata]
    have hpre : shlexRun ('e' :: 'c' :: 'h' :: 'o' :: ' ' :: q :: s.data)
        .ws "" false [] = shlexRun (q :: s.data) .ws "" false ["echo"] := rfl
    rw [hpre]
    rcases hq with h | h <;> subst h
    · have : shlexRun ('\'' :: s.data) .ws "" false ["echo"] =
          shlexRun s.data .inSingle "" false ["echo"] := rfl
      rw [this]
      exact shlexRun_inSingle_stuck s.data (fun c hc => (hs c hc).1) "" false _
    · have : shlexRun ('"' :: s.data) .ws "" false ["echo"] =
          shlexRun s.data .inDouble "" false ["echo"] := rfl
      rw [this]
      exact shlexRun_inDouble_stuck s.data
        (fun c hc => ⟨(hs c hc).2.1, (hs c hc).2.2⟩) "" false _
  refine ⟨hmain, ?_⟩
  intro cwd fs
  have hne : ¬ ("echo " ++ String.mk [q] ++ s) = "" := by
    intro h
    have := congrArg String.data h
    rw [hdata] at this
    simp at this
  simp [readCommands, hne, hmain]

/-- Witness for the amended C4: `echo 'abc` (unterminated single quote)
fails with `No closing quotation`, both at the tokenizer and in
`_read_commands`. -/
theorem c4_amended_witness :
    shlexSplit ("echo " ++ String.mk ['\''] ++ "abc") =
      .error "No closing quotation" ∧
    ∀ cwd fs, readCommands ("echo " ++ String.mk ['\''] ++ "abc")
        (initState cwd fs) = .error (.valueError "No closing quotation") :=
  c4_amended_unterminated_quote '\'' "abc" (Or.inl rfl) (by decide)

/-- C7: `type` or `cd` invoked with an argument count other than one, and
`exit` invoked with two or more arguments, write
`<name>: invalid number of arguments` to the shell's standard error and
do nothing else: the resulting state differs only in that message (both
output buffers are cleared as every dispatch does), and no exit is
signalled, so the shell keeps running. -/
theorem c7_arity_error (env : Env) (st : ShellState)
    (h : ((st.command = "type" ∨ st.command = "cd") ∧ st.arguments.length ≠ 1) ∨
         (st.command = "exit" ∧ 2 ≤ st.arguments.length)) :
    handleCommands env st =
      .ok ({ st with
          stdout_output := "", stderr_output := "",
          termErr := st.termErr ++ st.command ++
            ": invalid number of arguments\n" }, none) := by
  rcases h with ⟨hc | hc, hn⟩ | ⟨hc, hn⟩
  · simp [handleCommands, hc, builtins, type, oneArgExactly, hn]
  · simp [handleCommands, hc, builtins, cd, oneArgExactly, hn]
  · have hne : ¬ st.arguments = [] := by
      intro h0
      rw [h0] at hn
      simp at hn
    have hn1 : st.arguments.length ≠ 1 := by omega
    simp [handleCommands, hc, builtins, exit, hne, oneArgExactly, hn1]

/-- Witness for C7: `exit 1 2` emits the arity error and leaves the
shell running (no exit signal). -/
theorem c7_witness :
    handleCommands envEmpty
        { initState "/root" [] with command := "exit", arguments := ["1", "2"] } =
      .ok ({ initState "/root" [] with
          command := "exit", arguments := ["1", "2"],
          termErr := "exit: invalid number of arguments\n" }, none) := by
  have := c7_arity_error envEmpty
    { initState "/root" [] with command := "exit", arguments := ["1", "2"] }
    (Or.inr ⟨rfl, by decide⟩)
  simpa [initState] using this

/-- C8: `exit` with no arguments exits the process with status `0`;
`exit` with one argument that is a digit string exits with that number
as the status; and every other command path keeps the shell running
(only a command named `exit` can ever produce an exit signal). -/
theorem c8_exit_codes (env : Env) (st : ShellState) :
    (st.command = "exit" → st.arguments = [] →
      handleCommands env st =
        .ok ({ st with stdout_output := "", stderr_output := "" },
          some (.int 0))) ∧
    (∀ s, st.command = "exit" → st.arguments = [s] → pyIsDigit s = true →
      handleCommands env st =
        .ok ({ st with stdout_output := "", stderr_output := "" },
          some (.int (pyStrToNat s)))) ∧
    (∀ st' act, handleCommands env st = .ok (st', act) → act ≠ none →
      st.command = "exit") := by
  refine ⟨?_, ?_, ?_⟩
  · intro hc ha
    simp [handleCommands, hc, builtins, exit, ha]
  · intro s hc ha hd
    simp [handleCommands, hc, builtins, exit, ha, oneArgExactly, hd]
  · intro st' act h hact
    by_cases hb : st.command ∈ builtins
    · have hc5 : st.command = "exit" ∨ st.command = "echo" ∨
          st.command = "type" ∨ st.command = "pwd" ∨ st.command = "cd" := by
        simpa [builtins] using hb
      rcases hc5 with hc | hc | hc | hc | hc
      · exact hc
      · simp [handleCommands, hc, builtins] at h
        exact absurd h.2.symm hact
      · simp [handleCommands, hc, builtins] at h
        exact absurd h.2.symm hact
      · simp [handleCommands, hc, builtins] at h
        exact absurd h.2.symm hact
      · simp only [handleCommands, hc, builtins] at h
        simp at h
        split at h
        · simp at h
        · simp at h
          exact absurd h.2.symm hact
    · simp [handleCommands, hb] at h
      split at h
      · simp at h
        exact absurd h.2.symm hact
      · simp at h
        exact absurd h.2.symm hact

/-- Witness for C8: `exit`, `exit 7`, and `exit 0` signal process exits
with statuses `0`, `7`, and `0`. -/
theorem c8_witness :
    handleCommands envEmpty { initState "/root" [] with command := "exit" } =
      .ok ({ initState "/root" [] with command := "exit" }, some (.int 0)) ∧
    handleCommands envEmpty
        { initState "/root" [] with command := "exit", arguments := ["7"] } =
      .ok ({ initState "/root" [] with command := "exit", arguments := ["7"] },
        some (.int 7)) ∧
    handleCommands envEmpty
        { initState "/root" [] with command := "exit", arguments := ["0"] } =
      .ok ({ initState "/root" [] with command := "exit", arguments := ["0"] },
        some (.int 0)) := by
  refine ⟨?_, ?_, ?_⟩
  · exact (c8_exit_codes envEmpty _).1 rfl rfl
  · exact (c8_exit_codes envEmpty _).2.1 "7" rfl rfl (by decide)
  · exact (c8_exit_codes envEmpty _).2.1 "0" rfl rfl (by decide)

/-- C5: for every well-formed argument list (each redirection operator
immediately followed by a filename token), extraction succeeds; the
resulting argument list is exactly the original minus every
operator/operand pair, wherever those pairs appear, hence contains no
redirection operator token; and the recorded targets are the operands
of the last stdout operator (`>`/`1>`) and of the last `2>` occurrence
respectively — the last occurrence wins. -/
theorem c5_extraction_invariant (st : ShellState)
    (hwf : wfRedir st.arguments = true) :
    ∃ st', setUpFileRedirection st = .ok st' ∧
      st'.arguments = extractArgs st.arguments ∧
      (∀ x ∈ st'.arguments, isRedirOp x = false) ∧
      (∀ i op f, st.arguments.get? i = some op → isOutOp op = true →
        st.arguments.get? (i + 1) = some f →
        (∀ j, i < j → ∀ op', st.arguments.get? j = some op' →
          isOutOp op' = false) →
        st'.filename_to_write_stdout = f) ∧
      (∀ i f, st.arguments.get? i = some "2>" →
        st.arguments.get? (i + 1) = some f →
        (∀ j, i < j → ¬ st.arguments.get? j = some "2>") →
        st'.filename_to_write_stderr = f) := by
  refine ⟨_, setUpFileRedirection_wf st hwf, rfl, ?_, ?_, ?_⟩
  · exact extractArgs_no_op st.arguments hwf
  · intro i op f hop hout hf hlast
    exact specSo_last st.arguments i op f hwf hop hout hf hlast ""
  · intro i f hop hf hlast
    exact specSe_last st.arguments i f hwf hop hf hlast ""

/-- Witness for C5: `a > f1 b 1> f2 2> g` extracts to `["a", "b"]` with
stdout target `f2` (the later `1>` wins over the earlier `>`) and
stderr target `g`. -/
theorem c5_witness :
    ∃ st', setUpFileRedirection { initState "/r" [] with
        command := "echo",
        arguments := ["a", ">", "f1", "b", "1>", "f2", "2>", "g"] } = .ok st' ∧
      st'.arguments = ["a", "b"] ∧
      st'.filename_to_write_stdout = "f2" ∧
      st'.filename_to_write_stderr = "g" := by
  obtain ⟨st', h1, h2, _, h4, h5⟩ := c5_extraction_invariant
    { initState "/r" [] with
      command := "echo",
      arguments := ["a", ">", "f1", "b", "1>", "f2", "2>", "g"] } (by decide)
  refine ⟨st', h1, by rw [h2]; rfl, ?_, ?_⟩
  · refine h4 4 "1>" "f2" rfl (by decide) rfl ?_
    intro j hj op' he
    have hlt : j < 8 := by
      by_contra hge
      push_neg at hge
      rw [List.get?_eq_none.mpr (by simpa using hge)] at he
      exact Option.noConfusion he
    interval_cases j <;>
      · simp only [List.get?] at he
        injection he with he
        subst he
        decide
  · refine h5 6 "g" rfl rfl ?_
    intro j hj he
    have hlt : j < 8 := by
      by_contra hge
      push_neg at hge
      rw [List.get?_eq_none.mpr (by simpa using hge)] at he
      exact Option.noConfusion he
    interval_cases j
    simp only [List.get?] at he
    injection he with he
    exact absurd he (by decide)

/-- C6: for a command name that is not one of the five built-ins,
resolution splits `PATH` on the separator `:` into an ordered directory
list and returns the join with the first directory whose join is a
regular file, with no suffix inference and no execute-permission check;
and when no directory contains such a file, the dispatcher records
`<name>: command not found` in the stderr buffer (delivered to the
shell's standard error when no `2>` target was recorded), signals no
exit (the shell keeps running), spawns no process, and changes nothing
else in the state. -/
theorem c6_path_resolution (env : Env) (st : ShellState) (cmd : String)
    (hcmd : st.command = cmd) (hnb : cmd ∉ builtins) :
    (∀ fp, getPathForFile env cmd = .ok fp →
      ∃ i d, (env.pathVar.splitOn ":").get? i = some d ∧
        env.isFile (osPathJoin d cmd) = true ∧ fp = osPathJoin d cmd ∧
        ∀ j d', j < i → (env.pathVar.splitOn ":").get? j = some d' →
          env.isFile (osPathJoin d' cmd) = false) ∧
    ((∀ d ∈ env.pathVar.splitOn ":", env.isFile (osPathJoin d cmd) = false) →
      handleCommands env st =
        .ok ({ st with
            stdout_output := "",
            stderr_output := cmd ++ ": command not found\n" }, none) ∧
      (st.filename_to_write_stderr = "" →
        (writeOutput { st with
            stdout_output := "",
            stderr_output := cmd ++ ": command not found\n" }).termErr =
          st.termErr ++ (cmd ++ ": command not found\n"))) := by
  subst hcmd
  refine ⟨?_, ?_⟩
  · intro fp h
    exact getPathLoop_first env st.command _ fp h
  · intro hnf
    refine ⟨handleCommands_not_found env st hnb hnf, ?_⟩
    intro h2
    have h3 : ¬ st.command ++ ": command not found\n" = "" :=
      str_append_ne_empty _ _ (by decide)
    exact writeOutput_stderr_term _ rfl h2 h3

/-- Witness for C6: `nosuchcmd` with an empty `PATH` search produces the
`command not found` diagnostic, keeps running, and spawns nothing. -/
theorem c6_witness :
    handleCommands envEmpty
        { initState "/root" [] with command := "nosuchcmd" } =
      .ok ({ initState "/root" [] with
          command := "nosuchcmd",
          stderr_output := "nosuchcmd: command not found\n" }, none) := by
  have h := (c6_path_resolution envEmpty
      { initState "/root" [] with command := "nosuchcmd" } "nosuchcmd" rfl
      (by decide)).2 (fun d hd => rfl)
  exact h.1

/-- C9: `cd` with exactly one argument substitutes every `~` occurrence
in the argument with the value of `HOME` (via `str.replace`, which
replaces all occurrences); when changing directory fails because the
path does not exist, the shell reports
`cd: <path>: No such file or directory` on its standard-error buffer,
the working directory is unchanged, and a subsequent `pwd` prints the
same directory as before the `cd`. -/
theorem c9_cd_missing_path (env : Env) (st : ShellState) (p h p' : String)
    (hcmd : st.command = "cd") (hargs : st.arguments = [p])
    (hhome : env.homeVar = some h)
    (hp' : p' = if p.data.contains '~' then p.replace "~" h else p)
    (hfail : env.chdir st.cwd p' = none) :
    ∃ st1, handleCommands env st = .ok (st1, none) ∧
      st1.cwd = st.cwd ∧
      st1.stderr_output = "cd: " ++ p' ++ ": No such file or directory\n" ∧
      ∃ st2, handleCommands env
          { st1 with command := "pwd", arguments := [] } = .ok (st2, none) ∧
        st2.stdout_output = st.cwd ++ "\n" := by
  by_cases hc : p.data.contains '~' = true
  · have hrepl : p' = p.replace "~" h := by rw [hp', if_pos hc]
    subst hrepl
    refine ⟨{ st with
        stdout_output := "",
        stderr_output :=
          "cd: " ++ p.replace "~" h ++ ": No such file or directory\n" },
      ?_, rfl, rfl, ?_⟩
    · have hmem : '~' ∈ p.data := by simpa using hc
      simp [handleCommands, hcmd, builtins, cd, oneArgExactly, hargs, hmem,
            hhome, hfail]
    · refine ⟨{ st with
          command := "pwd", arguments := [],
          stdout_output := st.cwd ++ "\n", stderr_output := "" }, ?_, rfl⟩
      simp [handleCommands, builtins, pwd]
  · have hrepl : p' = p := by rw [hp', if_neg hc]
    subst hrepl
    refine ⟨{ st with
        stdout_output := "",
        stderr_output := "cd: " ++ p' ++ ": No such file or directory\n" },
      ?_, rfl, rfl, ?_⟩
    · have hmem : ¬ '~' ∈ p'.data := by simpa using hc
      simp [handleCommands, hcmd, builtins, cd, oneArgExactly, hargs, hmem,
            hfail]
    · refine ⟨{ st with
          command := "pwd", arguments := [],
          stdout_output := st.cwd ++ "\n", stderr_output := "" }, ?_, rfl⟩
      simp [handleCommands, builtins, pwd]

/-- Witness for C9: `cd /nope` in an environment where no directory
exists reports the diagnostic, leaves the working directory `/root`,
and a following `pwd` still prints `/root`. -/
theorem c9_witness :
    ∃ st1, handleCommands envEmpty
        { initState "/root" [] with command := "cd", arguments := ["/nope"] } =
          .ok (st1, none) ∧
      st1.cwd = "/root" ∧
      st1.stderr_output = "cd: " ++ "/nope" ++ ": No such file or directory\n" ∧
      ∃ st2, handleCommands envEmpty
          { st1 with command := "pwd", arguments := [] } = .ok (st2, none) ∧
        st2.stdout_output = "/root" ++ "\n" :=
  c9_cd_missing_path envEmpty
    { initState "/root" [] with command := "cd", arguments := ["/nope"] }
    "/nope" "/home/user" "/nope" rfl rfl rfl (by decide) rfl

/-- The full iteration of `_handle` for a command that is not a built-in
and cannot be resolved on `PATH`: read, dispatch to the not-found
diagnostic, route the output. -/
theorem handleStep_not_found (env : Env) (line : String) (st0 stP : ShellState)
    (hread : readCommands line st0 = .ok stP)
    (hcmd : ¬ stP.command = "")
    (hnb : stP.command ∉ builtins)
    (hnf : ∀ d ∈ env.pathVar.splitOn ":",
      env.isFile (osPathJoin d stP.command) = false) :
    handleStep env line st0 =
      .ok (writeOutput { stP with
        stdout_output := "",
        stderr_output := stP.command ++ ": command not found\n" }, none) := by
  simp [handleStep, hread, hcmd, handleCommands_not_found env stP hnb hnf]

/-- C1: for every input line that tokenizes to a command followed by a
well-formed argument list containing a redirection operator (`>`, `1>`,
or `2>`) immediately followed by a filename token, the named target
file is created (or truncated to empty) during parsing, before any
command executes: directly after `_read_commands` the file holds `""`;
and when the command name is not a built-in and `PATH` resolution fails
(`NotFound`), the completed iteration still spawned no process,
reported `<name>: command not found`, and the target file exists. -/
theorem c1_redirect_truncated_at_parse (env : Env) (cwd : String) (fs : Fs)
    (line cmd : String) (args : List String) (i : Nat) (op f : String)
    (htok : shlexSplit line = .ok (cmd :: args))
    (hwf : wfRedir args = true)
    (hop : args.get? i = some op) (hisop : isRedirOp op = true)
    (hf : args.get? (i + 1) = some f)
    (hcmd : ¬ cmd = "") (hnb : cmd ∉ builtins)
    (hnf : ∀ d ∈ env.pathVar.splitOn ":",
      env.isFile (osPathJoin d cmd) = false) :
    (∃ stP, readCommands line (initState cwd fs) = .ok stP ∧
      fsRead stP.fs f = some "") ∧
    (∃ stF, handleStep env line (initState cwd fs) = .ok (stF, none) ∧
      stF.spawned = [] ∧ (fsRead stF.fs f).isSome = true ∧
      stF.stderr_output = cmd ++ ": command not found\n") := by
  have hline : ¬ line = "" := by
    intro h0
    rw [h0] at htok
    have h1 : (Except.ok [] : Except String (List String)) =
        .ok (cmd :: args) := htok
    simp at h1
  have hsetup := setUpFileRedirection_wf
    { initState cwd fs with termOut := "$ ", command := cmd, arguments := args }
    hwf
  have hread : readCommands line (initState cwd fs) =
      .ok { initState cwd fs with
        termOut := "$ ", command := cmd,
        arguments := extractArgs args,
        filename_to_write_stdout := specSo args "",
        filename_to_write_stderr := specSe args "",
        fs := specFs args fs } := by
    have h1 : readCommands line (initState cwd fs) =
        setUpFileRedirection { initState cwd fs with
          termOut := "$ ", command := cmd, arguments := args } := by
      simp [readCommands, hline, htok, initState]
    rw [h1, hsetup]
    rfl
  have hPfs : fsRead (specFs args fs) f = some "" :=
    specFs_operand args i op f fs hwf hop hisop hf
  constructor
  · exact ⟨_, hread, hPfs⟩
  · have hstep := handleStep_not_found env line (initState cwd fs)
      { initState cwd fs with
        termOut := "$ ", command := cmd,
        arguments := extractArgs args,
        filename_to_write_stdout := specSo args "",
        filename_to_write_stderr := specSe args "",
        fs := specFs args fs } hread hcmd hnb hnf
    refine ⟨_, hstep, ?_, ?_, ?_⟩
    · exact (writeOutput_effects _).1
    · exact fsRead_writeOutput_isSome _ f (by rw [show fsRead _ f = some "" from hPfs]; rfl)
    · exact (writeOutput_effects _).2.2.1

/-- Witness for C1: the line `nosuchcmd > out.txt` creates the empty
file `out.txt` at parse time, and the full iteration (with the command
unresolvable) spawns nothing and reports `command not found`, the file
still existing. -/
theorem c1_witness :
    (∃ stP, readCommands "nosuchcmd > out.txt" (initState "/root" []) =
        .ok stP ∧ fsRead stP.fs "out.txt" = some "") ∧
    (∃ stF, handleStep envEmpty "nosuchcmd > out.txt" (initState "/root" []) =
        .ok (stF, none) ∧
      stF.spawned = [] ∧ (fsRead stF.fs "out.txt").isSome = true ∧
      stF.stderr_output = "nosuchcmd: command not found\n") :=
  c1_redirect_truncated_at_parse envEmpty "/root" [] "nosuchcmd > out.txt"
    "nosuchcmd" [">", "out.txt"] 0 ">" "out.txt" rfl (by decide) rfl rfl rfl
    (by decide) (by decide) (fun d hd => rfl)

end Shell
